import Mathlib

/-!
Verification of the transcript acquisition pipeline of the focuslearn
backend.  The definitions below are shallow embeddings of the JavaScript
source; each definition carries a pointer to the file and lines it embeds.
Times and model probabilities are embedded as rationals (the JS numbers at
the relevant code points are only compared, added, subtracted and scaled by
1000, so rational arithmetic is faithful).  Segment texts are embedded as
lists of characters.
-/

/-- A raw recognized segment as returned by the speech-to-text collaborator
(verbose json segment of src/services/transcriptService.js lines 183-194). -/
structure RawSegment where
  text : List Char
  start : ℚ
  «end» : ℚ
  avg_logprob : ℚ
  no_speech_prob : ℚ
deriving DecidableEq

/-- A segment of a finished transcript: offset and duration in
milliseconds (src/models mongoose transcript schema and the objects built
at src/services/transcriptService.js lines 188-192). -/
structure TranscriptSegment where
  text : List Char
  offset : ℚ
  duration : ℚ
deriving DecidableEq

/-- Confidence filter, src/services/transcriptService.js lines 184-186:
segment.avg_logprob > -0.4 && segment.no_speech_prob < 0.4
(written with -0.4 = -2/5 and 0.4 = 2/5). -/
def retainSegment (s : RawSegment) : Bool :=
  decide ((-2/5 : ℚ) < s.avg_logprob ∧ s.no_speech_prob < (2/5 : ℚ))

/-- Segment emission, src/services/transcriptService.js lines 188-192:
offset = (segment.start + offset) * 1000,
duration = (segment.end - segment.start) * 1000. -/
def emitSegment (off : ℚ) (s : RawSegment) : TranscriptSegment :=
  ⟨s.text, (s.start + off) * 1000, (s.«end» - s.start) * 1000⟩

/-- Offset advance, src/services/transcriptService.js line 194:
offset += segments[segments.length - 1]?.end || 60.
The JS expression x || 60 evaluates to 60 both when the chunk retained no
segment (undefined) and when the end time of the last retained segment is
the falsy number 0. -/
def advanceOffset (off : ℚ) (retained : List RawSegment) : ℚ :=
  match retained.getLast? with
  | some s => if s.«end» ≠ 0 then off + s.«end» else off + 60
  | none => off + 60

/-- The per-chunk transcription loop restricted to its successful
transcriptions, src/services/transcriptService.js lines 143-221: each
chunk keeps the segments passing the confidence filter, emits them at the
running offset, and advances the offset. -/
def stitchChunks : List (List RawSegment) → ℚ → List TranscriptSegment
  | [], _ => []
  | c :: rest, off =>
    (c.filter retainSegment).map (emitSegment off) ++
      stitchChunks rest (advanceOffset off (c.filter retainSegment))

/-- Offset stitching over an ordered list of chunk results with the
running offset initialized to zero (src/services/transcriptService.js
lines 143-144). -/
def stitch (chunks : List (List RawSegment)) : List TranscriptSegment :=
  stitchChunks chunks 0

/-- Modelled from the claim wording of C1 (not from the source): the
running offset advances by the end time of the last retained segment
whenever the chunk retained at least one segment, and by the nominal 60
second chunk duration only when it retained none. -/
def advanceOffsetClaim (off : ℚ) (retained : List RawSegment) : ℚ :=
  match retained.getLast? with
  | some s => off + s.«end»
  | none => off + 60

/-- The stitcher that claim C1 describes, differing from the source only
in the offset advance rule. -/
def stitchChunksClaim : List (List RawSegment) → ℚ → List TranscriptSegment
  | [], _ => []
  | c :: rest, off =>
    (c.filter retainSegment).map (emitSegment off) ++
      stitchChunksClaim rest (advanceOffsetClaim off (c.filter retainSegment))

/-- Claim C1 stitcher with the running offset initialized to zero. -/
def stitchClaim (chunks : List (List RawSegment)) : List TranscriptSegment :=
  stitchChunksClaim chunks 0

/-- A retained segment whose end time is 0: it passes the confidence
filter (avg_logprob 0 > -0.4, no_speech_prob 0 < 0.4) and triggers the
falsy-zero branch of the offset advance. -/
def zeroEndSeg : RawSegment := ⟨['a'], 0, 0, 0, 0⟩

/-- An ordinary retained segment of the second chunk. -/
def laterSeg : RawSegment := ⟨['b'], 0, 1, 0, 0⟩

/-- Two chunk results distinguishing the source stitcher from the claim
C1 stitcher. -/
def c1CexChunks : List (List RawSegment) := [[zeroEndSeg], [laterSeg]]

/-- JS String.prototype.slice with nonnegative indices:
s.slice(a, b) keeps the characters from position a up to (excluding)
position b, clamped to the string length
(used at src/services/transcriptService.js line 230). -/
def jsSlice (s : List Char) (a b : ℕ) : List Char :=
  (s.drop a).take (b - a)

/-- JS Array.prototype.join with separator a single space,
src/services/transcriptService.js line 224. -/
def joinWithSpace : List (List Char) → List Char
  | [] => []
  | [t] => t
  | t :: ts => t ++ ' ' :: joinWithSpace ts

/-- Re-slicing loop of src/services/transcriptService.js lines 227-233:
refinedIndex starts at 0; each output segment takes
refinedText.slice(refinedIndex, refinedIndex + length) where length is
the length of the original segment text, keeping offset and duration,
and refinedIndex advances by that length. -/
def resliceGo (refined : List Char) : ℕ → List TranscriptSegment → List TranscriptSegment
  | _, [] => []
  | idx, item :: rest =>
    ⟨jsSlice refined idx (idx + item.text.length), item.offset, item.duration⟩ ::
      resliceGo refined (idx + item.text.length) rest

/-- Re-partitioning of the refined text onto the original per-segment
character-length boundaries, src/services/transcriptService.js
lines 226-233. -/
def resliceTranscript (refined : List Char) (t : List TranscriptSegment) : List TranscriptSegment :=
  resliceGo refined 0 t

/-- Sum of the text lengths of the first i segments: the refinedIndex
value reached before the i-th segment is re-sliced. -/
def prefLen (t : List TranscriptSegment) (i : ℕ) : ℕ :=
  ((t.take i).map (fun s => s.text.length)).sum

/-- An item of a caption track returned by the caption source
collaborator (fields read at src/services/transcriptService.js
lines 48-52). -/
structure CaptionItem where
  text : List Char
  offset : ℚ
  duration : ℚ
deriving DecidableEq

/-- Caption formatting, src/services/transcriptService.js lines 48-52 and
src/unnamed/part_000 lines 35-39: each caption item is copied field for
field into a transcript segment. -/
def formatCaptions (items : List CaptionItem) : List TranscriptSegment :=
  items.map fun item => ⟨item.text, item.offset, item.duration⟩

/-- The non-decreasing offset invariant of a transcript: adjacent
segments have offsetMs i less than or equal to offsetMs (i+1). -/
def offsetsNondecreasing (t : List TranscriptSegment) : Prop :=
  List.Chain' (· ≤ ·) (t.map TranscriptSegment.offset)

/-- A segment passing the confidence filter (avg_logprob 0, no_speech_prob 0). -/
def c2GoodSeg : RawSegment := ⟨['g'], 0, 1, 0, 0⟩

/-- A low-confidence segment: avg_logprob -1 is at or below the -0.4
threshold, so the filter drops it. -/
def c2BadSeg : RawSegment := ⟨['x'], 1, 2, -1, 0⟩

/-- One chunk whose transcription result mixes a retained and a dropped
segment. -/
def c2Chunks : List (List RawSegment) := [[c2GoodSeg, c2BadSeg]]

/-- First witness segment for the re-slicing claim. -/
def w0 : TranscriptSegment := ⟨['a', 'b'], 0, 5⟩

/-- Second witness segment for the re-slicing claim; its text contains a
non-space character. -/
def w1 : TranscriptSegment := ⟨['c', 'd'], 5, 5⟩

/-- The shape of a JS error observed by the retry handler of
src/services/transcriptService.js lines 196-209: its status field, whether
its message contains the substring rate_limit, whether its message equals
Transcription timeout, and the parseInt result of its retry-after header
(none when the header is absent or does not parse to a number). -/
structure JsError where
  status : Option ℕ
  msgHasRateLimit : Bool
  msgIsTimeout : Bool
  retryAfterHeader : Option ℕ
deriving DecidableEq

/-- Retryable classification, src/services/transcriptService.js line 199:
error.status === 429 || error.message.includes(rate_limit) ||
error.message === Transcription timeout. -/
def isRetryable (e : JsError) : Bool :=
  e.status == some 429 || e.msgHasRateLimit || e.msgIsTimeout

/-- Retry delay in milliseconds, src/services/transcriptService.js
line 200: parseInt(error.headers?.[retry-after]) * 1000 ||
Math.pow(2, attempts) * 1000.  The JS || operator falls through to the
exponential backoff when the left side is 0 (a parsed header value 0) or
NaN (an absent or unparseable header). -/
def retryDelayMs (e : JsError) (attempts : ℕ) : ℕ :=
  match e.retryAfterHeader with
  | some n => if n * 1000 ≠ 0 then n * 1000 else 2 ^ attempts * 1000
  | none => 2 ^ attempts * 1000

/-- Modelled from the claim wording of C7 (not from the source): the
delay before a retry equals the provider-supplied retry hint (seconds,
scaled to milliseconds) whenever the header is present, and 2 ^ attempt
seconds otherwise. -/
def claimRetryDelayMs (e : JsError) (attempts : ℕ) : ℕ :=
  match e.retryAfterHeader with
  | some n => n * 1000
  | none => 2 ^ attempts * 1000

/-- Outcome of one transcription loop run. -/
inductive TranscribeResult where
  | ok : TranscribeResult
  | fatalRetries : JsError → TranscribeResult
  | nonRetryable : JsError → TranscribeResult
deriving DecidableEq

/-- maxRetries of src/services/transcriptService.js line 162. -/
def maxRetries : ℕ := 3

/-- The while loop of src/services/transcriptService.js lines 163-210,
abstracted over the per-attempt outcome (out k is the outcome of the call
made while the attempts counter holds k).  The loop condition
attempts < maxRetries is represented structurally by the remaining
parameter, maintained as maxRetries - attempts; remaining = 0 means the
condition is false and the loop exits without a call (unreachable from
the initial state attempts = 0).  On a retryable failure the counter
becomes attempts + 1, the delay is computed, and the loop throws a fatal
error when attempts + 1 has reached maxRetries (remaining hits 0) or
sleeps for the delay and retries otherwise; a non-retryable failure
throws immediately.  The result is the number of calls made, the list of
delays slept, and the outcome. -/
def transcribeGo (out : ℕ → Except JsError Unit) (attempts : ℕ) :
    ℕ → ℕ × List ℕ × TranscribeResult
  | 0 => (0, [], .ok)
  | r + 1 =>
    match out attempts with
    | .ok _ => (1, [], .ok)
    | .error e =>
      if isRetryable e then
        if r = 0 then (1, [], .fatalRetries e)
        else
          let res := transcribeGo out (attempts + 1) r
          (res.1 + 1, retryDelayMs e (attempts + 1) :: res.2.1, res.2.2)
      else (1, [], .nonRetryable e)

/-- One chunk transcription with retry, src/services/transcriptService.js
lines 161-210: attempts starts at 0 and maxRetries is 3. -/
def transcribeChunk (out : ℕ → Except JsError Unit) : ℕ × List ℕ × TranscribeResult :=
  transcribeGo out 0 maxRetries

/-- A rate-limited error carrying the header retry-after: 0, whose parsed
value 0 is falsy in JS. -/
def zeroHintErr : JsError := ⟨some 429, false, false, some 0⟩

/-- An attempt oracle that fails with the zero-hint rate-limit error on
every call. -/
def zeroHintOut : ℕ → Except JsError Unit := fun _ => .error zeroHintErr

/-- A non-retryable error: status 500, no rate-limit or timeout message. -/
def nonRetryErr : JsError := ⟨some 500, false, false, none⟩

/-- An attempt oracle that fails non-retryably on every call. -/
def nonRetryOut : ℕ → Except JsError Unit := fun _ => .error nonRetryErr

/-- Observable steps of one fetchTranscript run (src/unnamed/part_000
lines 8-91): the cache lookup (Transcript.findOne), one caption fetch per
language tried (YoutubeTranscript.fetchTranscript), the synthesis run
(generateWhisperTranscript, which performs all download and transcription
work), the persistence write (Transcript.create) and the re-read after a
duplicate-key error (Transcript.findOne). -/
inductive FetchEvent where
  | cacheLookup : FetchEvent
  | captionFetch : String → FetchEvent
  | whisperRun : FetchEvent
  | storeCreate : FetchEvent
  | storeReread : FetchEvent
deriving DecidableEq

/-- A persisted transcript record (src/unnamed/part_001: videoId unique,
transcript as stored). -/
structure StoreRecord where
  videoId : String
  transcript : List TranscriptSegment
deriving DecidableEq

/-- Outcome of a Transcript.create call: success, a duplicate-key error
(code 11000), or any other error. -/
inductive CreateOutcome where
  | ok : CreateOutcome
  | duplicate : CreateOutcome
  | failure : CreateOutcome
deriving DecidableEq

/-- Environment of one fetchTranscript run (src/unnamed/part_000): the
behavior of the collaborators during this run.  captionResult l is the
caption track returned for language l, or none when the caption fetch
throws; isProduction is the NODE_ENV === production check; whisperResult
is the outcome of generateWhisperTranscript; createOutcome is the outcome
of the (single) Transcript.create call of the run; reread is the record
found by Transcript.findOne after a duplicate-key error. -/
structure FetchEnv where
  captionResult : String → Option (List CaptionItem)
  isProduction : Bool
  whisperResult : Except Unit (List TranscriptSegment)
  createOutcome : CreateOutcome
  reread : Option StoreRecord

/-- The fallback language list of src/unnamed/part_000 line 22. -/
def fallbackLangs : List String := ["ta", "hi", "en"]

/-- The fallback loop of src/unnamed/part_000 lines 23-31: languages are
tried in order and the loop breaks at the first successful fetch; fetch
failures are swallowed. -/
def tryFallbackLangs (env : FetchEnv) : List String → Option (List CaptionItem) × List FetchEvent
  | [] => (none, [])
  | lang :: rest =>
    match env.captionResult lang with
    | some items => (some items, [.captionFetch lang])
    | none =>
      let r := tryFallbackLangs env rest
      (r.1, .captionFetch lang :: r.2)

/-- The caption attempt of src/unnamed/part_000 lines 17-32: preferred
language first, then the fallback list; the result is the first
successful track, or none when every language fails. -/
def fetchCaptions (env : FetchEnv) (language : String) :
    Option (List CaptionItem) × List FetchEvent :=
  match env.captionResult language with
  | some items => (some items, [.captionFetch language])
  | none =>
    let r := tryFallbackLangs env fallbackLangs
    (r.1, .captionFetch language :: r.2)

/-- The persistence step with duplicate handling, src/unnamed/part_000
lines 40-49 and 66-75: Transcript.create; on error code 11000 the winning
record is re-read and its transcript returned (an absent winning record
makes the member access throw, modelled as an error); any other create
error is re-thrown. -/
def persistTranscript (env : FetchEnv) (videoId : String) (t : List TranscriptSegment)
    (_store : Option StoreRecord) :
    Except Unit (List TranscriptSegment × Option StoreRecord) × List FetchEvent :=
  match env.createOutcome with
  | .ok => (.ok (t, some ⟨videoId, t⟩), [.storeCreate])
  | .duplicate =>
    match env.reread with
    | some r => (.ok (r.transcript, some r), [.storeCreate, .storeReread])
    | none => (.error (), [.storeCreate, .storeReread])
  | .failure => (.error (), [.storeCreate])

/-- The no-captions continuation of src/unnamed/part_000 lines 53-80: in
production the run returns null without entering synthesis; otherwise
generateWhisperTranscript runs and its result is persisted with the same
duplicate handling. -/
def noCaptionsStep (env : FetchEnv) (videoId : String) (store : Option StoreRecord)
    (events : List FetchEvent) :
    Except Unit (Option (List TranscriptSegment)) × List FetchEvent × Option StoreRecord :=
  if env.isProduction then (.ok none, events, store)
  else
    match env.whisperResult with
    | .error _ => (.error (), events ++ [.whisperRun], store)
    | .ok t =>
      match persistTranscript env videoId t store with
      | (.ok (t', s'), pes) => (.ok (some t'), events ++ .whisperRun :: pes, s')
      | (.error _, pes) => (.error (), events ++ .whisperRun :: pes, store)

/-- The body of the outer try block of fetchTranscript,
src/unnamed/part_000 lines 9-80: cache check, caption attempt, the
transcript && transcript.length > 0 test, persistence, and the
no-captions continuation.  Returns the outcome (ok transcript, ok none
for the null result, or error for a thrown exception), the events of the
run, and the store content afterwards. -/
def fetchBody (env : FetchEnv) (store : Option StoreRecord) (videoId language : String) :
    Except Unit (Option (List TranscriptSegment)) × List FetchEvent × Option StoreRecord :=
  match store with
  | some rec => (.ok (some rec.transcript), [.cacheLookup], some rec)
  | none =>
    let cap := fetchCaptions env language
    let events := FetchEvent.cacheLookup :: cap.2
    match cap.1 with
    | some items =>
      if items.isEmpty then noCaptionsStep env videoId store events
      else
        match persistTranscript env videoId (formatCaptions items) store with
        | (.ok (t, s'), pes) => (.ok (some t), events ++ pes, s')
        | (.error _, pes) => (.error (), events ++ pes, store)
    | none => noCaptionsStep env videoId store events

/-- fetchTranscript of src/unnamed/part_000 lines 8-91: the body under
the outer catch, which in production downgrades any thrown error to the
null result and otherwise re-throws. -/
def fetchTranscript (env : FetchEnv) (store : Option StoreRecord) (videoId language : String) :
    Except Unit (Option (List TranscriptSegment)) × List FetchEvent × Option StoreRecord :=
  match fetchBody env store videoId language with
  | (.error _, es, s') =>
    if env.isProduction then (.ok none, es, s') else (.error (), es, s')
  | out => out

/-- A stored witness record. -/
def wRec : StoreRecord := ⟨"vid", [w0]⟩

/-- An environment whose collaborators all fail (captions throw in every
language, synthesis fails) in production mode. -/
def c6Env : FetchEnv := ⟨fun _ => none, true, .error (), .ok, none⟩

/-- A one-item caption track for the first-writer-wins witness. -/
def c4Items : List CaptionItem := [⟨['h'], 0, 1⟩]

/-- An environment where captions succeed in language en but persistence
hits a duplicate-key error and the winning record wRec is re-read. -/
def c4CapEnv : FetchEnv :=
  ⟨fun l => if l = "en" then some c4Items else none, false, .error (), .duplicate, some wRec⟩

/-- An environment where captions fail everywhere, synthesis succeeds,
and persistence hits a duplicate-key error resolved by re-reading wRec. -/
def c4WhEnv : FetchEnv := ⟨fun _ => none, false, .ok [w1], .duplicate, some wRec⟩

/-- The temporary artifacts existing at some point of a synthesis run:
the local files on disk and the keys staged in object storage (remote
keys are written here without the s3://bucket/ URI wrapper that
audioExtractor.js line 144 adds and cleanupAudio line 176 strips). -/
structure Artifacts where
  localFiles : List String
  remoteKeys : List String
deriving DecidableEq

/-- Creating a file or key (idempotent: a second write overwrites). -/
def addFile (fs : List String) (f : String) : List String :=
  if f ∈ fs then fs else fs ++ [f]

/-- A successful deletion of a file or key. -/
def removeFile (fs : List String) (f : String) : List String :=
  fs.filter (· != f)

/-- The effect of fs.unlink(path) as written at
src/services/transcriptService.js lines 132, 133 and 213: fs there is the
callback API of require(fs) (line 9), and calling it without a callback
makes Node throw TypeError ERR_INVALID_CALLBACK synchronously, before
touching the filesystem; the surrounding catch logs and swallows the
exception, so the file is never removed. -/
def fsUnlinkNoCallback (fs : List String) (_f : String) : List String := fs

/-- path.basename: the part of the path after the last slash
(src/services/transcriptService.js lines 104 and 146). -/
def basename (s : String) : String :=
  ⟨(s.data.reverse.takeWhile (· != '/')).reverse⟩

/-- The replace(.wav, _preprocessed.wav) renaming of
src/services/transcriptService.js lines 105-106.  JS replace substitutes
the first occurrence; the names this run produces contain .wav exactly
once, at the end, so suffix replacement is faithful. -/
def replaceWavSuffix (s : String) : String :=
  ⟨s.data.take (s.data.length - 4) ++ ("_preprocessed.wav" : String).data⟩

/-- The local path of the downloaded source audio,
src/utils/audioExtractor.js line 65 (outputDir abbreviated to temp/). -/
def tempPath (videoId : String) : String := "temp/audio_" ++ videoId ++ ".mp3"

/-- The S3 key of a staged chunk, src/utils/audioExtractor.js line 132:
audio_videoId_ followed by the chunk file basename. -/
def chunkKey (videoId c : String) : String := "audio_" ++ videoId ++ "_" ++ c

/-- Filesystem and object-storage effects of a successful extractAudio
run (src/utils/audioExtractor.js lines 58-169) starting from a clean
state: yt-dlp writes the temp mp3 (line 103); the mp3 is uploaded under
audio_videoId.mp3 (lines 112-118), a key that is never passed to
cleanupAudio afterwards; ffmpeg segmentation writes the chunk files
(line 121); each chunk is uploaded under its chunk key (lines 130-141);
and the finally block (lines 148-168) deletes the temp mp3 and every
local chunk with fsPromises.unlink, which succeeds. -/
def extractAudioEffects (videoId : String) (chunkNames : List String) (s : Artifacts) :
    Artifacts :=
  let s : Artifacts := ⟨addFile s.localFiles (tempPath videoId), s.remoteKeys⟩
  let s : Artifacts := ⟨s.localFiles, addFile s.remoteKeys ("audio_" ++ videoId ++ ".mp3")⟩
  let s : Artifacts := ⟨chunkNames.foldl (fun fs c => addFile fs ("temp/" ++ c)) s.localFiles, s.remoteKeys⟩
  let s : Artifacts := ⟨s.localFiles, chunkNames.foldl (fun ks c => addFile ks (chunkKey videoId c)) s.remoteKeys⟩
  let s : Artifacts := ⟨removeFile s.localFiles (tempPath videoId), s.remoteKeys⟩
  ⟨chunkNames.foldl (fun fs c => removeFile fs ("temp/" ++ c)) s.localFiles, s.remoteKeys⟩

/-- Effects of one iteration of the preprocessing loop of
src/services/transcriptService.js lines 103-138 on chunk key k: the chunk
is downloaded to /tmp (lines 109-120), preprocessAudio writes the
preprocessed file (line 122), uploadToS3 stages the preprocessed key
(line 125), and the finally block (lines 130-137) calls fs.unlink without
a callback on both files, so neither is removed. -/
def preprocessChunkEffects (s : Artifacts) (k : String) : Artifacts :=
  let lc := "/tmp/" ++ basename k
  let pf := replaceWavSuffix lc
  let pk := replaceWavSuffix k
  let s : Artifacts := ⟨addFile s.localFiles lc, s.remoteKeys⟩
  let s : Artifacts := ⟨addFile s.localFiles pf, s.remoteKeys⟩
  let s : Artifacts := ⟨s.localFiles, addFile s.remoteKeys pk⟩
  ⟨fsUnlinkNoCallback (fsUnlinkNoCallback s.localFiles lc) pf, s.remoteKeys⟩

/-- Effects of one iteration of the transcription loop of
src/services/transcriptService.js lines 145-221 on preprocessed key pk:
the file is downloaded to /tmp (lines 148-159; the same path the
preprocessing loop already wrote), transcription itself touches no file,
and the finally block (lines 211-220) again calls fs.unlink without a
callback, so the file stays. -/
def transcribeChunkEffects (s : Artifacts) (pk : String) : Artifacts :=
  let lc := "/tmp/" ++ basename pk
  let s : Artifacts := ⟨addFile s.localFiles lc, s.remoteKeys⟩
  ⟨fsUnlinkNoCallback s.localFiles lc, s.remoteKeys⟩

/-- The temporary artifacts remaining after a fully successful
generateWhisperTranscript run (src/services/transcriptService.js lines
88-248) for videoId with the given segmented chunk file names: audio
extraction, the preprocessing loop, the transcription loop, and the final
cleanupAudio over the chunk keys and preprocessed keys (lines 242-247),
every S3 delete succeeding. -/
def whisperRunArtifacts (videoId : String) (chunkNames : List String) : Artifacts :=
  let s := extractAudioEffects videoId chunkNames ⟨[], []⟩
  let s3Keys := chunkNames.map (chunkKey videoId)
  let s := s3Keys.foldl preprocessChunkEffects s
  let pks := s3Keys.map replaceWavSuffix
  let s := pks.foldl transcribeChunkEffects s
  ⟨s.localFiles, (s3Keys ++ pks).foldl removeFile s.remoteKeys⟩

/-- Error classes of the download step (spec section 7 taxonomy). -/
inductive DownloadError where
  | rateLimited : DownloadError
  | timeout : DownloadError
  | unavailable : DownloadError
  | other : DownloadError
deriving DecidableEq

/-- Environment of one extractAudio run: the outcome of the (single)
yt-dlp invocation and the chunk files segmentation produces. -/
structure ExtractEnv where
  downloadResult : Except DownloadError Unit
  chunksProduced : List String

/-- The download portion of extractAudio, src/utils/audioExtractor.js
lines 101-147: one ytDlp call (the first component counts ytDlp
invocations); any failure propagates to the catch (lines 145-147), which
wraps and rethrows it; zero chunks from segmentation is also an error.
There is no retry loop around the download in any extractAudio variant of
this repository. -/
def extractAudioRun (env : ExtractEnv) : ℕ × Except Unit (List String) :=
  match env.downloadResult with
  | .error _ => (1, .error ())
  | .ok _ =>
    if env.chunksProduced.isEmpty then (1, .error ())
    else (1, .ok env.chunksProduced)

/-- Modelled from the claim wording of C9 (not from the source): a
download failing with a retryable error (rate-limited or timeout) is
retried, so at least a second tool invocation follows the first failure. -/
def downloadRetryClaim : Prop :=
  ∀ env : ExtractEnv,
    (env.downloadResult = .error .rateLimited ∨ env.downloadResult = .error .timeout) →
    2 ≤ (extractAudioRun env).1

/-- A run whose single download attempt is rate limited. -/
def c9CexEnv : ExtractEnv := ⟨.error .rateLimited, []⟩

/-- A caption track whose offsets arrive out of order (5 then 0). -/
def c3CexItems : List CaptionItem := [⟨['u'], 5, 1⟩, ⟨['v'], 0, 1⟩]

/-- An environment whose caption source returns the unordered track for
language en and whose persistence write succeeds. -/
def c3CexEnv : FetchEnv :=
  ⟨fun l => if l = "en" then some c3CexItems else none, false, .error (), .ok, none⟩

theorem retainSegment_eq_true (s : RawSegment) :
    retainSegment s = true ↔
      ((-2/5 : ℚ) < s.avg_logprob ∧ s.no_speech_prob < (2/5 : ℚ)) := by
  simp [retainSegment]

theorem retain_zeroEndSeg : retainSegment zeroEndSeg = true := by
  rw [retainSegment_eq_true]
  constructor <;> norm_num [zeroEndSeg]

theorem retain_laterSeg : retainSegment laterSeg = true := by
  rw [retainSegment_eq_true]
  constructor <;> norm_num [laterSeg]

theorem stitchChunks_eq_join (chunks : List (List RawSegment)) (off : ℚ) :
    stitchChunks chunks off =
      ((((chunks.map (List.filter retainSegment)).scanl advanceOffset off).zip
        (chunks.map (List.filter retainSegment))).map
        (fun p => p.2.map (emitSegment p.1))).flatten := by
  induction chunks generalizing off with
  | nil => rfl
  | cons c rest ih =>
    simp only [stitchChunks, List.map_cons, List.scanl_cons, List.singleton_append,
      List.zip_cons_cons, List.flatten_cons, ih]

/-- C1 (amended): the synthesized transcript is the concatenation, in chunk
order, of each chunk's retained segments emitted at the running offsets
obtained by scanning the offset-advance rule from zero; every retained
segment is emitted with offset (start + runningOffset) * 1000 and duration
(end - start) * 1000, and the running offset advances by the end time of
the last retained segment of the chunk when that end time is nonzero, and
by the nominal 60 second chunk duration when the chunk retained no segment
or its last retained segment has end time 0. -/
theorem C1_offset_stitching_amended (chunks : List (List RawSegment)) :
    stitch chunks =
      ((((chunks.map (List.filter retainSegment)).scanl advanceOffset 0).zip
        (chunks.map (List.filter retainSegment))).map
        (fun p => p.2.map (emitSegment p.1))).flatten :=
  stitchChunks_eq_join chunks 0

/-- C1 counterexample: on a chunk whose last retained segment has end time
0 (a falsy JS number), the source advances the running offset by 60
seconds, not by that end time, so the stitcher the claim describes
disagrees with the source. -/
theorem C1_counterexample : stitch c1CexChunks ≠ stitchClaim c1CexChunks := by
  have h1 : List.filter retainSegment [zeroEndSeg] = [zeroEndSeg] := by
    simp [List.filter_cons, retain_zeroEndSeg]
  have h2 : List.filter retainSegment [laterSeg] = [laterSeg] := by
    simp [List.filter_cons, retain_laterSeg]
  simp only [stitch, stitchClaim, c1CexChunks, stitchChunks, stitchChunksClaim,
    h1, h2, advanceOffset, advanceOffsetClaim, List.getLast?_singleton]
  simp only [zeroEndSeg, laterSeg, emitSegment, List.map_cons, List.map_nil]
  norm_num

theorem retain_c2GoodSeg : retainSegment c2GoodSeg = true := by
  rw [retainSegment_eq_true]
  constructor <;> norm_num [c2GoodSeg]

theorem retain_c2BadSeg : retainSegment c2BadSeg = false := by
  simp only [retainSegment, decide_eq_false_iff_not, c2BadSeg, not_and]
  intro h
  norm_num at h

theorem mem_of_getLast?_eq_some {α : Type _} {l : List α} {a : α}
    (h : l.getLast? = some a) : a ∈ l := by
  obtain ⟨hne, hx⟩ := List.mem_getLast?_eq_getLast (Option.mem_def.mpr h)
  rw [hx]
  exact List.getLast_mem hne

theorem mem_stitchChunks {chunks : List (List RawSegment)} {off : ℚ} {t : TranscriptSegment}
    (ht : t ∈ stitchChunks chunks off) :
    ∃ raw, raw ∈ chunks.flatten ∧ retainSegment raw = true ∧ ∃ o, t = emitSegment o raw := by
  induction chunks generalizing off with
  | nil => simp [stitchChunks] at ht
  | cons c rest ih =>
    simp only [stitchChunks] at ht
    rcases List.mem_append.mp ht with h | h
    · obtain ⟨raw, hraw, rfl⟩ := List.mem_map.mp h
      exact ⟨raw, List.mem_flatten.mpr ⟨c, List.mem_cons_self c _, List.mem_of_mem_filter hraw⟩,
        List.of_mem_filter hraw, off, rfl⟩
    · obtain ⟨raw, hmem, hret, o, rfl⟩ := ih h
      obtain ⟨l, hl, hml⟩ := List.mem_flatten.mp hmem
      exact ⟨raw, List.mem_flatten.mpr ⟨l, List.mem_cons_of_mem _ hl, hml⟩, hret, o, rfl⟩

/-- C2: every segment of a synthesized transcript comes from a raw
segment of some chunk result that passed the confidence filter, so no
emitted segment derives from a raw segment with avg_logprob at or below
-0.4 or no_speech_prob at or above 0.4, regardless of what the
speech-to-text collaborator returned. -/
theorem C2_confidence_filter (chunks : List (List RawSegment)) (t : TranscriptSegment)
    (ht : t ∈ stitch chunks) :
    ∃ raw, raw ∈ chunks.flatten ∧
      ((-2/5 : ℚ) < raw.avg_logprob ∧ raw.no_speech_prob < (2/5 : ℚ)) ∧
      t.text = raw.text ∧ t.duration = (raw.«end» - raw.start) * 1000 ∧
      ∃ off, t.offset = (raw.start + off) * 1000 := by
  obtain ⟨raw, hmem, hret, o, rfl⟩ := mem_stitchChunks ht
  exact ⟨raw, hmem, (retainSegment_eq_true raw).mp hret, rfl, rfl, o, rfl⟩

theorem c2_stitch_eval : stitch c2Chunks = [emitSegment 0 c2GoodSeg] := by
  simp [stitch, c2Chunks, stitchChunks, List.filter_cons, retain_c2GoodSeg, retain_c2BadSeg]

/-- Witness for C2 at a chunk list containing a low-confidence segment. -/
theorem C2_confidence_filter_witness :
    (emitSegment 0 c2GoodSeg ∈ stitch c2Chunks) ∧
    ∃ raw, raw ∈ c2Chunks.flatten ∧
      ((-2/5 : ℚ) < raw.avg_logprob ∧ raw.no_speech_prob < (2/5 : ℚ)) ∧
      (emitSegment 0 c2GoodSeg).text = raw.text ∧
      (emitSegment 0 c2GoodSeg).duration = (raw.«end» - raw.start) * 1000 ∧
      ∃ off, (emitSegment 0 c2GoodSeg).offset = (raw.start + off) * 1000 :=
  ⟨by rw [c2_stitch_eval]; exact List.mem_singleton_self _,
   C2_confidence_filter c2Chunks (emitSegment 0 c2GoodSeg)
     (by rw [c2_stitch_eval]; exact List.mem_singleton_self _)⟩

theorem mul1000_mono {a b : ℚ} (h : a ≤ b) : a * 1000 ≤ b * 1000 :=
  mul_le_mul_of_nonneg_right h (by norm_num)

theorem advanceOffset_le (off : ℚ) (r : List RawSegment)
    (hr : ∀ s ∈ r, 0 ≤ s.start ∧ s.start ≤ s.«end») :
    off ≤ advanceOffset off r := by
  unfold advanceOffset
  cases hl : r.getLast? with
  | none => dsimp only; linarith
  | some s =>
    dsimp only
    have hs := hr s (mem_of_getLast?_eq_some hl)
    by_cases he : s.«end» = 0
    · rw [if_neg (by simp [he])]
      linarith
    · rw [if_pos he]
      linarith [hs.1, hs.2]

theorem emit_last_le_advance (off : ℚ) (r : List RawSegment) {s : RawSegment}
    (hl : r.getLast? = some s) (hse : 0 ≤ s.start ∧ s.start ≤ s.«end») :
    (s.start + off) * 1000 ≤ advanceOffset off r * 1000 := by
  unfold advanceOffset
  rw [hl]
  dsimp only
  by_cases he : s.«end» = 0
  · rw [if_neg (by simp [he])]
    exact mul1000_mono (by linarith [hse.1, hse.2])
  · rw [if_pos he]
    exact mul1000_mono (by linarith [hse.2])

theorem stitchChunks_sorted (chunks : List (List RawSegment)) (off : ℚ)
    (h : ∀ c ∈ chunks,
        List.Chain' (fun a b : RawSegment => a.start ≤ b.start) (c.filter retainSegment) ∧
        ∀ s ∈ c.filter retainSegment, 0 ≤ s.start ∧ s.start ≤ s.«end») :
    List.Chain' (· ≤ ·) ((stitchChunks chunks off).map TranscriptSegment.offset) ∧
    ∀ q ∈ (stitchChunks chunks off).map TranscriptSegment.offset, off * 1000 ≤ q := by
  induction chunks generalizing off with
  | nil => simp [stitchChunks]
  | cons c rest ih =>
    obtain ⟨hc, hs⟩ := h c (List.mem_cons_self c rest)
    obtain ⟨ihChain, ihLB⟩ :=
      ih (advanceOffset off (c.filter retainSegment))
        (fun d hd => h d (List.mem_cons_of_mem c hd))
    have hofle : off ≤ advanceOffset off (c.filter retainSegment) :=
      advanceOffset_le off _ hs
    simp only [stitchChunks, List.map_append]
    constructor
    · rw [List.chain'_append]
      refine ⟨?_, ihChain, ?_⟩
      · rw [List.map_map, List.chain'_map]
        exact hc.imp fun a b hab => mul1000_mono (by linarith)
      · intro x hx y hy
        rw [List.map_map, List.getLast?_map] at hx
        cases hl : (c.filter retainSegment).getLast? with
        | none => rw [hl] at hx; simp at hx
        | some s =>
          rw [hl] at hx
          simp only [Option.map_some', Option.mem_def, Option.some.injEq] at hx
          have hy' := ihLB y (List.mem_of_mem_head? hy)
          have hse := hs s (mem_of_getLast?_eq_some hl)
          have hle := emit_last_le_advance off (c.filter retainSegment) hl hse
          rw [← hx]
          simp only [Function.comp, emitSegment]
          linarith
    · intro q hq
      rcases List.mem_append.mp hq with h1 | h2
      · rw [List.map_map] at h1
        obtain ⟨s, hsr, rfl⟩ := List.mem_map.mp h1
        have hst := (hs s hsr).1
        simpa [Function.comp, emitSegment] using mul1000_mono (show off ≤ s.start + off by linarith)
      · have hq' := ihLB q h2
        have := mul1000_mono hofle
        linarith

theorem resliceGo_map_offset (refined : List Char) (idx : ℕ) (t : List TranscriptSegment) :
    (resliceGo refined idx t).map TranscriptSegment.offset = t.map TranscriptSegment.offset := by
  induction t generalizing idx with
  | nil => rfl
  | cons a t ih => simp [resliceGo, ih]

/-- C3 (amended): a synthesized transcript has non-decreasing offsets by
construction of the stitcher and of the offset-preserving refinement
re-slicing, under the hypothesis that each chunk result arrives with its
retained segments ordered by start time and with 0 <= start <= end; a
caption-derived transcript copies the caption source offsets verbatim, so
it satisfies the invariant exactly when the caption source offsets are
already non-decreasing — the invariant is not enforced on that path. -/
theorem C3_offsets_nondecreasing :
    (∀ items : List CaptionItem,
        List.Chain' (· ≤ ·) (items.map CaptionItem.offset) →
        offsetsNondecreasing (formatCaptions items)) ∧
    (∀ (chunks : List (List RawSegment)) (refined : List Char),
        (∀ c ∈ chunks,
            List.Chain' (fun a b : RawSegment => a.start ≤ b.start) (c.filter retainSegment) ∧
            ∀ s ∈ c.filter retainSegment, 0 ≤ s.start ∧ s.start ≤ s.«end») →
        offsetsNondecreasing (resliceTranscript refined (stitch chunks))) := by
  constructor
  · intro items h
    have hmap : (formatCaptions items).map TranscriptSegment.offset
        = items.map CaptionItem.offset := by
      simp only [formatCaptions, List.map_map]
      rfl
    unfold offsetsNondecreasing
    rw [hmap]
    exact h
  · intro chunks refined h
    unfold offsetsNondecreasing resliceTranscript
    rw [resliceGo_map_offset]
    exact (stitchChunks_sorted chunks 0 h).1

/-- Witness for C3 at a concrete caption track and a concrete chunk list. -/
theorem C3_offsets_nondecreasing_witness :
    offsetsNondecreasing (formatCaptions [⟨['h'], 0, 1⟩, ⟨['i'], 5, 1⟩]) ∧
    offsetsNondecreasing (resliceTranscript [] (stitch [[c2GoodSeg]])) := by
  constructor
  · refine C3_offsets_nondecreasing.1 _ ?_
    simp only [List.map_cons, List.map_nil]
    refine List.chain'_cons.mpr ⟨by norm_num, List.chain'_singleton _⟩
  · refine C3_offsets_nondecreasing.2 [[c2GoodSeg]] [] ?_
    intro c hc
    simp only [List.mem_singleton] at hc
    subst hc
    have hf : List.filter retainSegment [c2GoodSeg] = [c2GoodSeg] := by
      simp [List.filter_cons, retain_c2GoodSeg]
    rw [hf]
    refine ⟨List.chain'_singleton _, ?_⟩
    intro s hsm
    simp only [List.mem_singleton] at hsm
    subst hsm
    constructor <;> norm_num [c2GoodSeg]

/-- C3 counterexample: the non-decreasing-offset invariant does not hold
unconditionally for caption-derived transcripts: with a caption source
returning offsets 5 then 0, fetchTranscript persists and returns that
transcript verbatim (formatCaptions copies offsets with no sorting), and
its offsets decrease. -/
theorem C3_counterexample :
    fetchTranscript c3CexEnv none "vid" "en" =
      (.ok (some (formatCaptions c3CexItems)),
       [.cacheLookup, .captionFetch "en", .storeCreate],
       some ⟨"vid", formatCaptions c3CexItems⟩) ∧
    ¬ offsetsNondecreasing (formatCaptions c3CexItems) := by
  constructor
  · rfl
  · intro h
    simp only [offsetsNondecreasing, formatCaptions, c3CexItems, List.map_cons,
      List.map_nil, List.chain'_cons, List.chain'_singleton, and_true] at h
    norm_num at h

theorem prefLen_zero (t : List TranscriptSegment) : prefLen t 0 = 0 := by
  simp [prefLen]

theorem prefLen_cons_succ (a : TranscriptSegment) (t : List TranscriptSegment) (i : ℕ) :
    prefLen (a :: t) (i + 1) = a.text.length + prefLen t i := by
  simp [prefLen, List.take_succ_cons]

theorem resliceGo_get? (refined : List Char) (t : List TranscriptSegment) (idx i : ℕ) :
    (resliceGo refined idx t).get? i =
      (t.get? i).map fun item =>
        ⟨jsSlice refined (idx + prefLen t i) (idx + prefLen t i + item.text.length),
         item.offset, item.duration⟩ := by
  induction t generalizing idx i with
  | nil => simp [resliceGo]
  | cons a t ih =>
    cases i with
    | zero => simp [resliceGo, prefLen_zero]
    | succ i =>
      simp only [resliceGo, List.get?_cons_succ, prefLen_cons_succ]
      rw [ih]
      simp [Nat.add_assoc]

theorem resliceGo_length (refined : List Char) (idx : ℕ) (t : List TranscriptSegment) :
    (resliceGo refined idx t).length = t.length := by
  induction t generalizing idx with
  | nil => rfl
  | cons a t ih => simp [resliceGo, ih]

theorem joinWithSpace_cons_cons (t u : List Char) (ts : List (List Char)) :
    joinWithSpace (t :: u :: ts) = t ++ ' ' :: joinWithSpace (u :: ts) := rfl

theorem joinWithSpace_cons_prefix (u : List Char) (ts : List (List Char)) :
    ∃ z, joinWithSpace (u :: ts) = u ++ z := by
  cases ts with
  | nil => exact ⟨[], by simp [joinWithSpace]⟩
  | cons v ts => exact ⟨' ' :: joinWithSpace (v :: ts), rfl⟩

theorem all_space_of_eq_cons_take :
    ∀ l : List Char, l = ' ' :: l.take (l.length - 1) → ∀ c ∈ l, c = ' ' := by
  intro l
  induction l with
  | nil => intro h c hc; simp at hc
  | cons a t ih =>
    intro h c hc
    cases t with
    | nil =>
      simp only [List.length_singleton, Nat.sub_self, List.take_zero] at h
      rw [List.mem_singleton] at hc
      rw [hc]
      exact (List.cons.injEq _ _ _ _).mp h |>.1
    | cons b t' =>
      have hlen : (a :: b :: t').length - 1 = t'.length + 1 := by simp
      rw [hlen, List.take_succ_cons] at h
      obtain ⟨ha, ht⟩ := (List.cons.injEq _ _ _ _).mp h
      have ht' : b :: t' = ' ' :: (b :: t').take ((b :: t').length - 1) := by
        have hl2 : (b :: t').length - 1 = t'.length := by simp
        rw [hl2]
        rw [ha] at ht
        exact ht
      rcases List.mem_cons.mp hc with rfl | hc'
      · exact ha
      · exact ih ht' c hc'

theorem slice_mid (p u z : List Char) (hne : u ≠ []) :
    jsSlice (p ++ ' ' :: (u ++ z)) p.length (p.length + u.length) =
      ' ' :: u.take (u.length - 1) := by
  obtain ⟨c, cs, rfl⟩ := List.exists_cons_of_ne_nil hne
  unfold jsSlice
  rw [Nat.add_sub_cancel_left, List.drop_left]
  show List.take (c :: cs).length (' ' :: ((c :: cs) ++ z)) = _
  rw [List.length_cons, List.take_succ_cons, List.take_append_eq_append_take]
  simp

theorem second_slice_eq (s0 s1 : TranscriptSegment) (rest : List TranscriptSegment)
    (hne : s1.text ≠ []) :
    jsSlice (joinWithSpace ((s0 :: s1 :: rest).map TranscriptSegment.text))
        s0.text.length (s0.text.length + s1.text.length) =
      ' ' :: s1.text.take (s1.text.length - 1) := by
  obtain ⟨z, hz⟩ := joinWithSpace_cons_prefix s1.text (rest.map TranscriptSegment.text)
  have hjoin : joinWithSpace ((s0 :: s1 :: rest).map TranscriptSegment.text)
      = s0.text ++ ' ' :: (s1.text ++ z) := by
    simp only [List.map_cons, joinWithSpace_cons_cons, hz]
  rw [hjoin]
  exact slice_mid s0.text s1.text z hne

/-- C10 (implicit): the re-slicing of the refined text onto the original
segment boundaries uses cumulative original text lengths with no account
of the single-space join separators: the i-th output segment takes
refinedText.slice(L i, L i + len i) where L i is the sum of the first i
original text lengths; segment count, offsets and durations are
preserved; and even when the refiner returns its input verbatim, the
second segment of any transcript of at least two segments whose second
text contains a non-space character changes: it gains a leading space and
loses its last character. -/
theorem C10_reslice_misalignment :
    (∀ (refined : List Char) (t : List TranscriptSegment) (i : ℕ),
        (resliceTranscript refined t).get? i =
          (t.get? i).map fun item =>
            ⟨jsSlice refined (prefLen t i) (prefLen t i + item.text.length),
             item.offset, item.duration⟩) ∧
    (∀ (refined : List Char) (t : List TranscriptSegment),
        (resliceTranscript refined t).length = t.length) ∧
    (∀ (s0 s1 : TranscriptSegment) (rest : List TranscriptSegment),
        (∃ c ∈ s1.text, c ≠ ' ') →
        (resliceTranscript (joinWithSpace ((s0 :: s1 :: rest).map TranscriptSegment.text))
            (s0 :: s1 :: rest)).get? 1 =
          some ⟨' ' :: s1.text.take (s1.text.length - 1), s1.offset, s1.duration⟩ ∧
        ' ' :: s1.text.take (s1.text.length - 1) ≠ s1.text) := by
  refine ⟨?_, ?_, ?_⟩
  · intro refined t i
    unfold resliceTranscript
    rw [resliceGo_get?]
    simp
  · intro refined t
    exact resliceGo_length refined 0 t
  · intro s0 s1 rest hex
    have hne : s1.text ≠ [] := by
      obtain ⟨c, hc, -⟩ := hex
      exact List.ne_nil_of_mem hc
    constructor
    · unfold resliceTranscript
      rw [resliceGo_get?]
      have hp : prefLen (s0 :: s1 :: rest) 1 = s0.text.length := by
        simp [prefLen]
      simp only [List.get?_cons_succ, List.get?_cons_zero, Option.map_some', hp,
        Nat.zero_add]
      rw [second_slice_eq s0 s1 rest hne]
    · intro heq
      obtain ⟨c, hc, hcne⟩ := hex
      exact hcne (all_space_of_eq_cons_take s1.text heq.symm c hc)

/-- Witness for C10 at a two-segment transcript with texts ab and cd. -/
theorem C10_reslice_misalignment_witness :
    (∃ c ∈ w1.text, c ≠ ' ') ∧
    ((resliceTranscript (joinWithSpace ((w0 :: w1 :: []).map TranscriptSegment.text))
        (w0 :: w1 :: [])).get? 1 =
      some ⟨' ' :: w1.text.take (w1.text.length - 1), w1.offset, w1.duration⟩ ∧
      ' ' :: w1.text.take (w1.text.length - 1) ≠ w1.text) :=
  ⟨⟨'c', by simp [w1], by decide⟩,
   C10_reslice_misalignment.2.2 w0 w1 [] ⟨'c', by simp [w1], by decide⟩⟩

theorem transcribeGo_succ (out : ℕ → Except JsError Unit) (a r : ℕ) :
    transcribeGo out a (r + 1) =
      match out a with
      | .ok _ => (1, [], .ok)
      | .error e =>
        if isRetryable e then
          if r = 0 then (1, [], .fatalRetries e)
          else
            ((transcribeGo out (a + 1) r).1 + 1,
             retryDelayMs e (a + 1) :: (transcribeGo out (a + 1) r).2.1,
             (transcribeGo out (a + 1) r).2.2)
        else (1, [], .nonRetryable e) := rfl

theorem transcribeGo_calls_le (out : ℕ → Except JsError Unit) (r a : ℕ) :
    (transcribeGo out a r).1 ≤ r := by
  induction r generalizing a with
  | zero => simp [transcribeGo]
  | succ r ih =>
    rw [transcribeGo_succ]
    cases h : out a with
    | ok v => simp
    | error e =>
      dsimp only
      by_cases hr : isRetryable e
      · rw [if_pos hr]
        by_cases h0 : r = 0
        · rw [if_pos h0]
          omega
        · rw [if_neg h0]
          have := ih (a + 1)
          dsimp only
          omega
      · rw [if_neg hr]
        omega

theorem transcribeGo_nonretryable (out : ℕ → Except JsError Unit) :
    ∀ (k a r : ℕ) (e : JsError), k < r →
      (∀ j, j < k → ∃ ej, out (a + j) = .error ej ∧ isRetryable ej = true) →
      out (a + k) = .error e → isRetryable e = false →
      (transcribeGo out a r).1 = k + 1 ∧ (transcribeGo out a r).2.2 = .nonRetryable e := by
  intro k
  induction k with
  | zero =>
    intro a r e hk hj h he
    obtain ⟨r', rfl⟩ : ∃ r', r = r' + 1 := ⟨r - 1, by omega⟩
    rw [Nat.add_zero] at h
    rw [transcribeGo_succ, h]
    dsimp only
    rw [if_neg (by simp [he])]
    exact ⟨rfl, rfl⟩
  | succ k ih =>
    intro a r e hk hj h he
    obtain ⟨r', rfl⟩ : ∃ r', r = r' + 1 := ⟨r - 1, by omega⟩
    obtain ⟨e0, he0, hr0⟩ := hj 0 (Nat.succ_pos k)
    rw [Nat.add_zero] at he0
    have ih' := ih (a + 1) r' e (by omega)
      (fun j hjk => by
        obtain ⟨ej, hej, hrj⟩ := hj (j + 1) (Nat.succ_lt_succ hjk)
        refine ⟨ej, ?_, hrj⟩
        rw [show a + 1 + j = a + (j + 1) from by omega]
        exact hej)
      (by
        rw [show a + 1 + k = a + (k + 1) from by omega]
        exact h)
      he
    rw [transcribeGo_succ, he0]
    dsimp only
    rw [if_pos hr0, if_neg (show ¬r' = 0 by omega)]
    refine ⟨?_, ih'.2⟩
    dsimp only
    have hcalls := ih'.1
    omega

theorem transcribeChunk_all_retryable (out : ℕ → Except JsError Unit) (e0 e1 e2 : JsError)
    (h0 : out 0 = .error e0) (h1 : out 1 = .error e1) (h2 : out 2 = .error e2)
    (r0 : isRetryable e0 = true) (r1 : isRetryable e1 = true) (r2 : isRetryable e2 = true) :
    transcribeChunk out =
      (3, [retryDelayMs e0 1, retryDelayMs e1 2], .fatalRetries e2) := by
  have s3 : transcribeGo out 2 1 = (1, [], .fatalRetries e2) := by
    show transcribeGo out 2 (0 + 1) = _
    rw [transcribeGo_succ, h2]
    dsimp only
    rw [if_pos r2, if_pos rfl]
  have s2 : transcribeGo out 1 2 =
      (2, [retryDelayMs e1 2], .fatalRetries e2) := by
    show transcribeGo out 1 (1 + 1) = _
    rw [transcribeGo_succ, h1]
    dsimp only
    rw [if_pos r1, if_neg (by omega : ¬(1 : ℕ) = 0)]
    rw [show (1 : ℕ) + 1 = 2 from rfl, s3]
  have s1 : transcribeGo out 0 3 =
      (3, [retryDelayMs e0 1, retryDelayMs e1 2], .fatalRetries e2) := by
    show transcribeGo out 0 (2 + 1) = _
    rw [transcribeGo_succ, h0]
    dsimp only
    rw [if_pos r0, if_neg (by omega : ¬(2 : ℕ) = 0)]
    rw [show (0 : ℕ) + 1 = 1 from rfl, s2]
  exact s1

/-- C7 (amended): the transcription retry loop makes exactly maxRetries =
3 calls and then raises a fatal error when every attempt fails with a
retryable error; the delay before the k-th retry is the provider-supplied
retry hint (milliseconds) when the hint is present and nonzero, and
2 ^ k seconds otherwise (the JS || operator also falls back on a zero
hint); a non-retryable error after k retryable failures aborts immediately
with exactly k + 1 calls; and the loop never makes more than maxRetries
calls, so it never runs indefinitely. -/
theorem C7_retry_bound_amended :
    (∀ (out : ℕ → Except JsError Unit) (e0 e1 e2 : JsError),
        out 0 = .error e0 → out 1 = .error e1 → out 2 = .error e2 →
        isRetryable e0 = true → isRetryable e1 = true → isRetryable e2 = true →
        transcribeChunk out =
          (3, [retryDelayMs e0 1, retryDelayMs e1 2], .fatalRetries e2)) ∧
    (∀ (out : ℕ → Except JsError Unit) (k : ℕ) (e : JsError), k < maxRetries →
        (∀ j, j < k → ∃ ej, out j = .error ej ∧ isRetryable ej = true) →
        out k = .error e → isRetryable e = false →
        (transcribeChunk out).1 = k + 1 ∧
        (transcribeChunk out).2.2 = .nonRetryable e) ∧
    (∀ out, (transcribeChunk out).1 ≤ maxRetries) := by
  refine ⟨transcribeChunk_all_retryable, ?_, ?_⟩
  · intro out k e hk hj h he
    exact transcribeGo_nonretryable out k 0 maxRetries e hk
      (fun j hjk => by rw [Nat.zero_add]; exact hj j hjk)
      (by rw [Nat.zero_add]; exact h) he
  · intro out
    exact transcribeGo_calls_le out maxRetries 0

/-- Witness for C7 at concrete oracles: one failing retryably on every
call with a zero retry-after hint, one failing non-retryably at once. -/
theorem C7_retry_bound_amended_witness :
    transcribeChunk zeroHintOut =
      (3, [retryDelayMs zeroHintErr 1, retryDelayMs zeroHintErr 2],
        .fatalRetries zeroHintErr) ∧
    ((transcribeChunk nonRetryOut).1 = 0 + 1 ∧
      (transcribeChunk nonRetryOut).2.2 = .nonRetryable nonRetryErr) ∧
    (transcribeChunk zeroHintOut).1 ≤ maxRetries :=
  ⟨C7_retry_bound_amended.1 zeroHintOut zeroHintErr zeroHintErr zeroHintErr
      rfl rfl rfl (by decide) (by decide) (by decide),
   C7_retry_bound_amended.2.1 nonRetryOut 0 nonRetryErr (by decide)
      (fun j hj => absurd hj (Nat.not_lt_zero j)) rfl (by decide),
   C7_retry_bound_amended.2.2 zeroHintOut⟩

/-- C7 counterexample: with a rate-limited failure whose retry-after
header parses to 0 on every attempt, the claim predicts delays of 0
milliseconds (the hint is present), but the code falls back to
exponential backoff because 0 is falsy under the JS || operator. -/
theorem C7_counterexample :
    (transcribeChunk zeroHintOut).2.1 ≠
      [claimRetryDelayMs zeroHintErr 1, claimRetryDelayMs zeroHintErr 2] := by
  decide

/-- C6: in the skip-synthesis (production) profile, with no cached record
and captions unavailable in every language, fetchTranscript returns the
explicit null result and the run consists of exactly the cache lookup and
the four caption attempts: no synthesis (whisperRun, covering all
download and transcription work) and no store write occurs. -/
theorem C6_skip_synthesis (env : FetchEnv) (videoId language : String)
    (hcap : ∀ l, env.captionResult l = none) (hp : env.isProduction = true) :
    fetchTranscript env none videoId language =
      (.ok none,
       [.cacheLookup, .captionFetch language, .captionFetch "ta", .captionFetch "hi",
        .captionFetch "en"], none) ∧
    FetchEvent.whisperRun ∉
      ([.cacheLookup, .captionFetch language, .captionFetch "ta", .captionFetch "hi",
        .captionFetch "en"] : List FetchEvent) := by
  constructor
  · simp [fetchTranscript, fetchBody, fetchCaptions, tryFallbackLangs, fallbackLangs,
      noCaptionsStep, hcap, hp]
  · simp

/-- Witness for C6 at a concrete all-failing production environment. -/
theorem C6_skip_synthesis_witness :
    (∀ l, c6Env.captionResult l = none) ∧ c6Env.isProduction = true ∧
    (fetchTranscript c6Env none "xyz789" "en" =
      (.ok none,
       [.cacheLookup, .captionFetch "en", .captionFetch "ta", .captionFetch "hi",
        .captionFetch "en"], none) ∧
     FetchEvent.whisperRun ∉
       ([.cacheLookup, .captionFetch "en", .captionFetch "ta", .captionFetch "hi",
         .captionFetch "en"] : List FetchEvent)) :=
  ⟨fun _ => rfl, rfl, C6_skip_synthesis c6Env "xyz789" "en" (fun _ => rfl) rfl⟩

/-- C4: first-writer-wins persistence. When Transcript.create reports a
duplicate key (code 11000) and the winning record is found by the
re-read, fetchTranscript surfaces no error and returns the winning
record's stored transcript — discarding the locally computed one — on
the caption path and on the synthesis path alike. -/
theorem C4_first_writer_wins :
    (∀ (env : FetchEnv) (videoId language : String) (items : List CaptionItem)
        (r : StoreRecord),
        env.captionResult language = some items → items.isEmpty = false →
        env.createOutcome = .duplicate → env.reread = some r →
        fetchTranscript env none videoId language =
          (.ok (some r.transcript),
           [.cacheLookup, .captionFetch language, .storeCreate, .storeReread], some r)) ∧
    (∀ (env : FetchEnv) (videoId language : String) (wt : List TranscriptSegment)
        (r : StoreRecord),
        (∀ l, env.captionResult l = none) → env.isProduction = false →
        env.whisperResult = .ok wt →
        env.createOutcome = .duplicate → env.reread = some r →
        fetchTranscript env none videoId language =
          (.ok (some r.transcript),
           [.cacheLookup, .captionFetch language, .captionFetch "ta", .captionFetch "hi",
            .captionFetch "en", .whisperRun, .storeCreate, .storeReread], some r)) := by
  constructor
  · intro env videoId language items r hcap hne hdup hre
    simp [fetchTranscript, fetchBody, fetchCaptions, persistTranscript,
      hcap, hne, hdup, hre]
  · intro env videoId language wt r hcap hp hw hdup hre
    simp [fetchTranscript, fetchBody, fetchCaptions, tryFallbackLangs, fallbackLangs,
      noCaptionsStep, persistTranscript, hcap, hp, hw, hdup, hre]

/-- Witness for C4 at concrete environments with a duplicate-key outcome
on the caption path and on the synthesis path. -/
theorem C4_first_writer_wins_witness :
    fetchTranscript c4CapEnv none "vid" "en" =
      (.ok (some wRec.transcript),
       [.cacheLookup, .captionFetch "en", .storeCreate, .storeReread], some wRec) ∧
    fetchTranscript c4WhEnv none "vid" "en" =
      (.ok (some wRec.transcript),
       [.cacheLookup, .captionFetch "en", .captionFetch "ta", .captionFetch "hi",
        .captionFetch "en", .whisperRun, .storeCreate, .storeReread], some wRec) :=
  ⟨C4_first_writer_wins.1 c4CapEnv "vid" "en" c4Items wRec (by simp [c4CapEnv]) rfl rfl rfl,
   C4_first_writer_wins.2 c4WhEnv "vid" "en" [w1] wRec (fun _ => rfl) rfl rfl rfl rfl⟩

theorem persistTranscript_ok_store {env : FetchEnv} {videoId : String}
    {tr t : List TranscriptSegment} {store s' : Option StoreRecord} {es : List FetchEvent}
    (h : persistTranscript env videoId tr store = (.ok (t, s'), es)) :
    ∃ r, s' = some r ∧ r.transcript = t := by
  unfold persistTranscript at h
  split at h
  · simp only [Prod.mk.injEq, Except.ok.injEq] at h
    exact ⟨⟨videoId, tr⟩, h.1.2.symm, h.1.1⟩
  · split at h
    · rename_i r hr
      simp only [Prod.mk.injEq, Except.ok.injEq] at h
      exact ⟨r, h.1.2.symm, h.1.1⟩
    · simp at h
  · simp at h

theorem noCaptionsStep_ok_store {env : FetchEnv} {videoId : String}
    {store s' : Option StoreRecord} {events es : List FetchEvent}
    {t : List TranscriptSegment}
    (h : noCaptionsStep env videoId store events = (.ok (some t), es, s')) :
    ∃ r, s' = some r ∧ r.transcript = t := by
  unfold noCaptionsStep at h
  split at h
  · simp at h
  · split at h
    · simp at h
    · split at h
      · rename_i t' s'' pes hpp
        simp only [Prod.mk.injEq, Except.ok.injEq, Option.some.injEq] at h
        obtain ⟨r, hr1, hr2⟩ := persistTranscript_ok_store hpp
        exact ⟨r, h.2.2 ▸ hr1, hr2.trans h.1⟩
      · simp at h

theorem fetchBody_ok_store {env : FetchEnv} {store s' : Option StoreRecord}
    {videoId language : String} {t : List TranscriptSegment} {es : List FetchEvent}
    (h : fetchBody env store videoId language = (.ok (some t), es, s')) :
    ∃ r, s' = some r ∧ r.transcript = t := by
  unfold fetchBody at h
  cases store with
  | some rec =>
    simp only [Prod.mk.injEq, Except.ok.injEq, Option.some.injEq] at h
    exact ⟨rec, h.2.2.symm, h.1⟩
  | none =>
    dsimp only at h
    split at h
    · split at h
      · exact noCaptionsStep_ok_store h
      · split at h
        · rename_i t' s'' pes hpp
          simp only [Prod.mk.injEq, Except.ok.injEq, Option.some.injEq] at h
          obtain ⟨r, hr1, hr2⟩ := persistTranscript_ok_store hpp
          exact ⟨r, h.2.2 ▸ hr1, hr2.trans h.1⟩
        · simp at h
    · exact noCaptionsStep_ok_store h

theorem fetchTranscript_ok_store {env : FetchEnv} {store s' : Option StoreRecord}
    {videoId language : String} {t : List TranscriptSegment} {es : List FetchEvent}
    (h : fetchTranscript env store videoId language = (.ok (some t), es, s')) :
    ∃ r, s' = some r ∧ r.transcript = t := by
  unfold fetchTranscript at h
  rcases hb : fetchBody env store videoId language with ⟨r0, es0, s0⟩
  rw [hb] at h
  cases r0 with
  | error e =>
    dsimp only at h
    by_cases hp : env.isProduction
    · rw [if_pos hp] at h
      simp at h
    · rw [if_neg hp] at h
      simp at h
  | ok v =>
    dsimp only at h
    simp only [Prod.mk.injEq, Except.ok.injEq] at h
    obtain ⟨hv, hes, hs⟩ := h
    subst hv
    subst hs
    exact fetchBody_ok_store hb

/-- C8: cache-hit short-circuit and idempotence.  With a persisted record
present, fetchTranscript returns its stored transcript at once and the
run consists of the cache lookup alone (no caption fetch, no synthesis,
no store write); and after any run that returned a transcript, a second
run over the resulting store returns the identical transcript with only
the cache lookup. -/
theorem C8_cache_hit_idempotence :
    (∀ (env : FetchEnv) (rec : StoreRecord) (videoId language : String),
        fetchTranscript env (some rec) videoId language =
          (.ok (some rec.transcript), [.cacheLookup], some rec)) ∧
    (∀ (env env2 : FetchEnv) (store s' : Option StoreRecord)
        (videoId language language2 : String)
        (t : List TranscriptSegment) (es : List FetchEvent),
        fetchTranscript env store videoId language = (.ok (some t), es, s') →
        fetchTranscript env2 s' videoId language2 =
          (.ok (some t), [.cacheLookup], s')) := by
  constructor
  · intro env rec videoId language
    rfl
  · intro env env2 store s' videoId language language2 t es h
    obtain ⟨r, hs, ht⟩ := fetchTranscript_ok_store h
    subst hs
    subst ht
    rfl

/-- Witness for C8: a cache hit, and a second fetch after a first run
that persisted a transcript under a duplicate-key resolution. -/
theorem C8_cache_hit_idempotence_witness :
    fetchTranscript c6Env (some wRec) "vid" "en" =
      (.ok (some wRec.transcript), [.cacheLookup], some wRec) ∧
    fetchTranscript c6Env (some wRec) "vid" "ta" =
      (.ok (some wRec.transcript), [.cacheLookup], some wRec) :=
  ⟨C8_cache_hit_idempotence.1 c6Env wRec "vid" "en",
   C8_cache_hit_idempotence.2 c4CapEnv c6Env none (some wRec) "vid" "en" "ta"
     wRec.transcript [.cacheLookup, .captionFetch "en", .storeCreate, .storeReread]
     (C4_first_writer_wins.1 c4CapEnv "vid" "en" c4Items wRec (by simp [c4CapEnv]) rfl rfl rfl)⟩

/-- C5 evaluation at the failing input: after a fully successful
synthesis run for videoId vid with one staged chunk, the downloaded chunk
copy and its preprocessed file remain in /tmp (the fs.unlink calls of
transcriptService.js lines 130-137 and 211-220 throw
ERR_INVALID_CALLBACK and are swallowed), and the staged source mp3
remains in object storage (its key is never passed to cleanupAudio) —
contradicting the claim that no local or remote temporary artifact
tagged with the videoId remains. -/
theorem C5_cleanup_leftover_files :
    whisperRunArtifacts "vid" ["audio_vid_000.wav"] =
      ⟨["/tmp/audio_vid_audio_vid_000.wav",
        "/tmp/audio_vid_audio_vid_000_preprocessed.wav"],
       ["audio_vid.mp3"]⟩ ∧
    (whisperRunArtifacts "vid" ["audio_vid_000.wav"]).localFiles ≠ [] := by
  have h1 : whisperRunArtifacts "vid" ["audio_vid_000.wav"] =
      ⟨["/tmp/audio_vid_audio_vid_000.wav",
        "/tmp/audio_vid_audio_vid_000_preprocessed.wav"],
       ["audio_vid.mp3"]⟩ := rfl
  refine ⟨h1, ?_⟩
  rw [h1]
  simp

theorem C9_counterexample : ¬ downloadRetryClaim := by
  intro h
  have h2 := h c9CexEnv (Or.inl rfl)
  have h1 : (extractAudioRun c9CexEnv).1 = 1 := rfl
  rw [h1] at h2
  omega

/-- C9 (amended): the download step invokes the external tool exactly
once per acquisition run — there is no retry and no backoff — and any
download failure, of the retryable class or not, immediately aborts the
extraction with an error. -/
theorem C9_download_single_attempt (env : ExtractEnv) :
    (extractAudioRun env).1 = 1 ∧
    (∀ e, env.downloadResult = .error e → (extractAudioRun env).2 = .error ()) := by
  constructor
  · unfold extractAudioRun
    cases env.downloadResult with
    | error e => rfl
    | ok v =>
      dsimp only
      split <;> rfl
  · intro e he
    unfold extractAudioRun
    rw [he]

/-- Witness for C9 at a run whose only download attempt is rate limited. -/
theorem C9_download_single_attempt_witness :
    (extractAudioRun c9CexEnv).1 = 1 ∧ (extractAudioRun c9CexEnv).2 = .error () :=
  ⟨(C9_download_single_attempt c9CexEnv).1,
   (C9_download_single_attempt c9CexEnv).2 .rateLimited rfl⟩
